import Mathlib

/-!
Verification development for the orions-chase sprite-sheet utilities.

The repository holds two Python scripts:

* `src/assets/create-sprint-sheet.py` (directory mode): loads every `.png`
  file of a directory in lexicographic filename order and pastes the decoded
  images left to right into one sheet saved as `sprite_sheet.png` inside the
  input directory.
* `src/assets/sprite-test.py` (synthetic mode): renders numbered tiles,
  shrinking the font size by 10 until the label bounding box fits the tile,
  and pastes them left to right into one sheet.

The shallow embedding below mirrors the scripts definition by definition.
Raster images are modelled as a size plus a pixel function; the PIL calls
`Image.new` and `Image.paste` (no mask, hence direct overwrite with clipping
to the destination) are modelled explicitly.  Filesystem facts
(`os.listdir`, `os.path.exists`) and the image decoder (`PIL.Image.open`)
enter as parameters.  The font facilities of PIL (`ImageFont.truetype`,
`draw.textbbox`, `draw.textsize`, glyph coverage of `draw.text`) enter as a
`FontLib` parameter because their numeric behaviour lives outside the
repository.  Python string functions used by the scripts (`sorted` on
strings, `str.endswith`, `os.path.join`) are embedded as executable
definitions on `List Char`, faithful to code-point order.
-/

/-- A pixel colour, as an RGBA quadruple of channel values.  The scripts use
RGB triples as well; those are embedded with alpha 255. -/
abbrev Color := Nat × Nat × Nat × Nat

/-- A decoded raster buffer: a width, a height and pixel data.  Pixel lookups
outside the bounds are junk values that no theorem depends on. -/
structure Image where
  width : Nat
  height : Nat
  pix : Nat → Nat → Color

instance : Inhabited Image := ⟨⟨0, 0, fun _ _ => (0, 0, 0, 0)⟩⟩

/-- PIL `Image.new(mode, (w, h), color)`: a solid-fill canvas. -/
def Image.new (w h : Nat) (c : Color) : Image := ⟨w, h, fun _ _ => c⟩

/-- PIL `base.paste(img, (px, py))` without a mask: a direct overwrite of the
covered region, clipped to the destination bounds, with no blending. -/
def Image.paste (base img : Image) (px py : Nat) : Image :=
  { base with
    pix := fun x y =>
      if px ≤ x ∧ x - px < img.width ∧ py ≤ y ∧ y - py < img.height ∧
          x < base.width ∧ y < base.height then
        img.pix (x - px) (y - py)
      else
        base.pix x y }

/-- Code-point lexicographic order on character lists: the order Python uses
to compare strings. -/
def lexLe : List Char → List Char → Bool
  | [], _ => true
  | _ :: _, [] => false
  | c :: cs, d :: ds =>
    if c.toNat < d.toNat then true
    else if d.toNat < c.toNat then false
    else lexLe cs ds

/-- Python string comparison `a <= b`: code-point lexicographic order. -/
def pyLe (a b : String) : Prop := lexLe a.data b.data = true

instance : DecidableRel pyLe :=
  fun a b => inferInstanceAs (Decidable (lexLe a.data b.data = true))

/-- Python `s.endswith(suffix)`: a case-sensitive code-point suffix test. -/
def pyEndsWith (s suffix : String) : Bool :=
  let sd := s.data
  let fd := suffix.data
  decide (fd.length ≤ sd.length) && sd.drop (sd.length - fd.length) == fd

/-- Python `sorted` on a list of strings: the sorted permutation under
code-point lexicographic order.  Python uses a stable sort; since the order
is total and antisymmetric on strings, every correct sort returns the same
list, so insertion sort is a faithful model. -/
def pySorted (l : List String) : List String := List.insertionSort pyLe l

/-- Python `os.path.join(a, b)` for the relative second components used by
the scripts: append, inserting a separator unless `a` is empty or already
ends with one. -/
def path_join (a b : String) : String :=
  if a = "" then b
  else if pyEndsWith a "/" = true then a ++ b
  else a ++ "/" ++ b

/-- The paste loop shared by both scripts,
`for index, image in enumerate(images): sheet.paste(image, (index * w, 0))`,
generalised to a first index `start` so that it can be reasoned about by
recursion. -/
def pasteStrip (w : Nat) (sheet : Image) (images : List Image) (start : Nat) : Image :=
  match images with
  | [] => sheet
  | img :: rest => pasteStrip w (sheet.paste img (start * w) 0) rest (start + 1)

namespace CreateSprintSheet

/-- The filename pipeline of `load_images` in create-sprint-sheet.py:
`[f for f in sorted(os.listdir(image_dir)) if f.endswith(".png")]`.
`listing` models `os.listdir(image_dir)`, the immediate entries of the
directory in arbitrary order (no recursion into subdirectories). -/
def image_files (listing : List String) : List String :=
  (pySorted listing).filter (fun f => pyEndsWith f ".png")

/-- `load_images` of create-sprint-sheet.py.  `decode` models
`PIL.Image.open` on a full path. -/
def load_images (decode : String → Image) (image_dir : String)
    (listing : List String) : List Image :=
  (image_files listing).map (fun img => decode (path_join image_dir img))

/-- `create_sprite_sheet` of create-sprint-sheet.py: the canvas is a new
RGBA image (default fill, transparent black) of width
`images[0].width * len(images)` and the height of `images[0]`; images are
pasted left to right at offsets `index * images[0].width`.  The `save` call
is modelled by returning the finished sheet. -/
def create_sprite_sheet (images : List Image) : Image :=
  let sprite_width := images.headI.width
  let sprite_height := images.headI.height
  let sheet_width := sprite_width * images.length
  let sheet_height := sprite_height
  pasteStrip sprite_width (Image.new sheet_width sheet_height (0, 0, 0, 0)) images 0

/-- The observable effects of one run of the `__main__` block of
create-sprint-sheet.py: at most one file write and one printed line. -/
structure MainRun where
  written : Option (String × Image)
  printed : String

/-- The `__main__` block of create-sprint-sheet.py: load the images; if any
were found, composite and save the sheet inside the input directory and
print the path, otherwise only print a message. -/
def main_run (decode : String → Image) (image_dir : String)
    (listing : List String) : MainRun :=
  let images := load_images decode image_dir listing
  if images.isEmpty then
    { written := none, printed := "No PNG files found in the directory." }
  else
    let output_path := path_join image_dir "sprite_sheet.png"
    { written := some (output_path, create_sprite_sheet images),
      printed := "Sprite sheet saved as " ++ output_path }

end CreateSprintSheet

namespace SpriteTest

/-- A text bounding box as returned by `draw.textbbox((0, 0), text, font)`:
left, top, right, bottom. -/
structure BBox where
  x0 : Int
  y0 : Int
  x1 : Int
  y1 : Int
  deriving DecidableEq

/-- The font facilities of PIL used by sprite-test.py, abstracted:
`bbox size text` models `draw.textbbox((0, 0), text, truetype(path, size))`;
`tsize text` models `draw.textsize(text, load_default())`;
`glyph fsize text x y` models whether the glyphs of `text`, rendered at the
origin with the given font size (`none` meaning the default bitmap font),
cover the point `(x, y)`. -/
structure FontLib where
  bbox : Int → String → BBox
  tsize : String → Int × Int
  glyph : Option Int → String → Int → Int → Bool

/-- The fixed probe list of `get_font_path` in sprite-test.py. -/
def possible_paths : List String :=
  ["/Library/Fonts/Arial.ttf",
   "/System/Library/Fonts/Supplemental/Arial.ttf",
   "/usr/share/fonts/truetype/dejavu/DejaVuSans-Bold.ttf",
   "/usr/share/fonts/truetype/freefont/FreeSansBold.ttf"]

/-- `get_font_path` of sprite-test.py: the first probed path that exists on
the filesystem, else `None`.  `fsExists` models `os.path.exists`. -/
def get_font_path (fsExists : String → Bool) : Option String :=
  possible_paths.find? fsExists

/-- `draw.text((x, y), text, fill, font)`: overwrite with `color` every
in-bounds pixel covered by a glyph of `text` placed at `pos`. -/
def drawText (img : Image) (L : FontLib) (fsize : Option Int) (text : String)
    (pos : Int × Int) (color : Color) : Image :=
  { img with
    pix := fun x y =>
      if x < img.width ∧ y < img.height ∧
          L.glyph fsize text ((x : Int) - pos.1) ((y : Int) - pos.2) = true then
        color
      else
        img.pix x y }

/-- The Python runtime errors this embedding distinguishes. -/
inductive PyErr where
  | unboundLocalTextBbox
  deriving DecidableEq

/-- The `while True` size-fit loop of `create_individual_images`: measure the
label at the current size; stop when the measured box fits the tile, else
shrink the size by 10 and retry.  The loop in the source has no bound; the
embedding carries fuel, and `none` means the loop did not exit within `fuel`
iterations. -/
def fitLoop (bbox : Int → String → BBox) (width height : Nat) (text : String)
    (font_size : Int) : Nat → Option (Int × BBox)
  | 0 => none
  | fuel + 1 =>
    let text_bbox := bbox font_size text
    let text_width := text_bbox.x1 - text_bbox.x0
    let text_height := text_bbox.y1 - text_bbox.y0
    if text_width ≤ (width : Int) ∧ text_height ≤ (height : Int) then
      some (font_size, text_bbox)
    else
      fitLoop bbox width height text (font_size - 10) fuel

/-- Whether a measured bounding box fits a tile of the given size. -/
def fitsIn (width height : Nat) (b : BBox) : Prop :=
  b.x1 - b.x0 ≤ (width : Int) ∧ b.y1 - b.y0 ≤ (height : Int)

instance (width height : Nat) (b : BBox) : Decidable (fitsIn width height b) := by
  unfold fitsIn
  infer_instance

/-- One iteration of the loop body of `create_individual_images` in
sprite-test.py, producing the tile for label `i`.  On the `font_path is
None` path the source computes `draw.textsize` and then evaluates
`text_x = (width - text_width) // 2 - text_bbox[0]`; `text_bbox` is only
ever assigned on the `font_path` branch, so that read raises
`UnboundLocalError` and the process terminates.  `Int.fdiv` is Python floor
division `//`. -/
def makeTile (L : FontLib) (width height : Nat) (background_color : Color)
    (font_path : Option String) (initial_font_size : Int) (font_color : Color)
    (fuel : Nat) (i : Nat) : Option (Except PyErr Image) :=
  let image := Image.new width height background_color
  let text := toString i
  match font_path with
  | some _ =>
    match fitLoop L.bbox width height text initial_font_size fuel with
    | none => none
    | some (font_size, text_bbox) =>
      let text_width := text_bbox.x1 - text_bbox.x0
      let text_height := text_bbox.y1 - text_bbox.y0
      let text_x := ((width : Int) - text_width).fdiv 2 - text_bbox.x0
      let text_y := ((height : Int) - text_height).fdiv 2 - text_bbox.y0
      some (Except.ok (drawText image L (some font_size) text (text_x, text_y) font_color))
  | none =>
    some (Except.error PyErr.unboundLocalTextBbox)

/-- The `for i in range(1, count + 1)` loop of `create_individual_images`,
generalised to a first index `i` and a remaining count. -/
def imagesLoop (L : FontLib) (width height : Nat) (background_color : Color)
    (font_path : Option String) (initial_font_size : Int) (font_color : Color)
    (fuel : Nat) : Nat → Nat → Option (Except PyErr (List Image))
  | _, 0 => some (Except.ok [])
  | i, n + 1 =>
    match makeTile L width height background_color font_path initial_font_size
        font_color fuel i with
    | none => none
    | some (Except.error e) => some (Except.error e)
    | some (Except.ok img) =>
      match imagesLoop L width height background_color font_path
          initial_font_size font_color fuel (i + 1) n with
      | none => none
      | some (Except.error e) => some (Except.error e)
      | some (Except.ok rest) => some (Except.ok (img :: rest))

/-- `create_individual_images` of sprite-test.py.  The outcome is `none`
when a size-fit loop ran out of fuel (the source would still be looping),
`some (Except.error e)` when the source raises, and `some (Except.ok imgs)`
when the source returns `imgs`. -/
def create_individual_images (L : FontLib) (count width height : Nat)
    (background_color : Color) (font_path : Option String)
    (initial_font_size : Int) (font_color : Color) (fuel : Nat) :
    Option (Except PyErr (List Image)) :=
  imagesLoop L width height background_color font_path initial_font_size
    font_color fuel 1 count

/-- `create_sprite_sheet` of sprite-test.py: a new opaque white RGB canvas
of width `len(images) * width` and height `height`; images pasted left to
right at offsets `index * width`. -/
def create_sprite_sheet (images : List Image) (width height : Nat) : Image :=
  let sprite_sheet_width := images.length * width
  let sprite_sheet_height := height
  pasteStrip width
    (Image.new sprite_sheet_width sprite_sheet_height (255, 255, 255, 255)) images 0

end SpriteTest

/-- A concrete font model used to instantiate hypotheses on examples: the
measured box of a label at size `s` is the square from the origin to
`(s, s)`, and glyph coverage is empty. -/
def constLib : SpriteTest.FontLib :=
  { bbox := fun s _ => ⟨0, 0, s, s⟩
    tsize := fun _ => (10, 10)
    glyph := fun _ _ _ _ => false }

/-- Spec-side reformulation of the compositor for the refinement claim about
paste offsets: paste each image at an explicitly listed horizontal offset. -/
def pasteAtOffsets (base : Image) : List (Image × Nat) → Image
  | [] => base
  | (img, off) :: rest => pasteAtOffsets (base.paste img off 0) rest

/-- Spec-side offset table of the directory-mode compositor: image `i` goes
to horizontal offset `i` times the width of the first image; the sizes of
the later images are never consulted. -/
def firstImageOffsets (images : List Image) : List (Image × Nat) :=
  images.enum.map (fun p => (p.2, p.1 * images.headI.width))

/-! ## Helper lemmas -/

theorem Image.paste_width (base img : Image) (px py : Nat) :
    (Image.paste base img px py).width = base.width := rfl

theorem Image.paste_height (base img : Image) (px py : Nat) :
    (Image.paste base img px py).height = base.height := rfl

theorem lexLe_total (a b : List Char) : lexLe a b = true ∨ lexLe b a = true := by
  induction a generalizing b with
  | nil => left; rfl
  | cons c cs ih =>
    cases b with
    | nil => right; rfl
    | cons d ds =>
      rcases Nat.lt_trichotomy c.toNat d.toNat with h | h | h
      · left; simp [lexLe, h]
      · rcases ih ds with h2 | h2
        · left; simp [lexLe, h, h2]
        · right; simp [lexLe, h.symm, h2]
      · right; simp [lexLe, h]

theorem lexLe_trans {a b c : List Char} (h1 : lexLe a b = true)
    (h2 : lexLe b c = true) : lexLe a c = true := by
  induction a generalizing b c with
  | nil => rfl
  | cons x xs ih =>
    cases b with
    | nil => simp [lexLe] at h1
    | cons y ys =>
      cases c with
      | nil => simp [lexLe] at h2
      | cons z zs =>
        rcases Nat.lt_trichotomy x.toNat y.toNat with hxy | hxy | hxy
        · rcases Nat.lt_trichotomy y.toNat z.toNat with hyz | hyz | hyz
          · have hxz : x.toNat < z.toNat := Nat.lt_trans hxy hyz
            simp [lexLe, hxz]
          · have hxz : x.toNat < z.toNat := hyz ▸ hxy
            simp [lexLe, hxz]
          · simp [lexLe, hyz, Nat.lt_asymm hyz] at h2
        · have h1' : lexLe xs ys = true := by
            simpa [lexLe, hxy, Nat.lt_irrefl] using h1
          rcases Nat.lt_trichotomy y.toNat z.toNat with hyz | hyz | hyz
          · have hxz : x.toNat < z.toNat := hxy ▸ hyz
            simp [lexLe, hxz]
          · have h2' : lexLe ys zs = true := by
              simpa [lexLe, hyz, Nat.lt_irrefl] using h2
            have hxz : x.toNat = z.toNat := hxy.trans hyz
            simp [lexLe, hxz, Nat.lt_irrefl, ih h1' h2']
          · simp [lexLe, hyz, Nat.lt_asymm hyz] at h2
        · simp [lexLe, hxy, Nat.lt_asymm hxy] at h1

theorem lexLe_antisymm {a b : List Char} (h1 : lexLe a b = true)
    (h2 : lexLe b a = true) : a = b := by
  induction a generalizing b with
  | nil =>
    cases b with
    | nil => rfl
    | cons d ds => simp [lexLe] at h2
  | cons c cs ih =>
    cases b with
    | nil => simp [lexLe] at h1
    | cons d ds =>
      rcases Nat.lt_trichotomy c.toNat d.toNat with h | h | h
      · simp [lexLe, h, Nat.lt_asymm h] at h2
      · have hcd : c = d := Char.ext (UInt32.toNat.inj h)
        subst hcd
        simp only [lexLe, Nat.lt_irrefl, if_false] at h1 h2
        rw [ih h1 h2]
      · simp [lexLe, h, Nat.lt_asymm h] at h1

theorem pyLe_total (a b : String) : pyLe a b ∨ pyLe b a := lexLe_total a.data b.data

theorem pyLe_trans {a b c : String} (h1 : pyLe a b) (h2 : pyLe b c) : pyLe a c :=
  lexLe_trans h1 h2

theorem pyLe_antisymm {a b : String} (h1 : pyLe a b) (h2 : pyLe b a) : a = b :=
  String.ext (lexLe_antisymm h1 h2)

theorem pySorted_perm (l : List String) : (pySorted l).Perm l :=
  List.perm_insertionSort pyLe l

theorem pySorted_sorted (l : List String) : (pySorted l).Sorted pyLe := by
  haveI : IsTotal String pyLe := ⟨pyLe_total⟩
  haveI : IsTrans String pyLe := ⟨fun _ _ _ => pyLe_trans⟩
  exact List.sorted_insertionSort pyLe l

theorem pasteStrip_width (w : Nat) (base : Image) (l : List Image) (start : Nat) :
    (pasteStrip w base l start).width = base.width := by
  induction l generalizing base start with
  | nil => rfl
  | cons img rest ih =>
    rw [pasteStrip, ih]
    rfl

theorem pasteStrip_height (w : Nat) (base : Image) (l : List Image) (start : Nat) :
    (pasteStrip w base l start).height = base.height := by
  induction l generalizing base start with
  | nil => rfl
  | cons img rest ih =>
    rw [pasteStrip, ih]
    rfl

theorem Image.paste_pix (base img : Image) (px py x y : Nat) :
    (Image.paste base img px py).pix x y =
      if px ≤ x ∧ x - px < img.width ∧ py ≤ y ∧ y - py < img.height ∧
          x < base.width ∧ y < base.height then
        img.pix (x - px) (y - py)
      else base.pix x y := rfl

theorem pasteStrip_pix_lt (w : Nat) (base : Image) (l : List Image) (start : Nat)
    (x y : Nat) (hx : x < start * w) :
    (pasteStrip w base l start).pix x y = base.pix x y := by
  induction l generalizing base start with
  | nil => rfl
  | cons img rest ih =>
    rw [pasteStrip]
    rw [ih _ (start + 1) (hx.trans_le (Nat.mul_le_mul_right w (Nat.le_succ start)))]
    rw [Image.paste_pix, if_neg]
    rintro ⟨h1, -⟩
    omega

theorem pasteStrip_get (w h : Nat) (base : Image) (l : List Image) (start : Nat)
    (hall : ∀ img ∈ l, img.width = w ∧ img.height = h)
    (i : Nat) (hi : i < l.length) (x y : Nat) (hx : x < w) (hy : y < h)
    (hW : (start + i) * w + x < base.width) (hH : y < base.height) :
    (pasteStrip w base l start).pix ((start + i) * w + x) y = (l.get ⟨i, hi⟩).pix x y := by
  induction l generalizing base start i with
  | nil => exact absurd hi (Nat.not_lt_zero i)
  | cons img rest ih =>
    rw [pasteStrip]
    cases i with
    | zero =>
      simp only [Nat.add_zero] at hW ⊢
      have hcol : start * w + x < (start + 1) * w := by
        rw [Nat.succ_mul]
        omega
      rw [pasteStrip_pix_lt w _ rest (start + 1) _ y hcol]
      have hiw : img.width = w := (hall img (List.mem_cons_self img rest)).1
      have hih : img.height = h := (hall img (List.mem_cons_self img rest)).2
      rw [Image.paste_pix, if_pos]
      · have hx' : start * w + x - start * w = x := by omega
        rw [hx']
        rfl
      · exact ⟨by omega, by omega, Nat.zero_le y, by omega, hW, hH⟩
    | succ j =>
      have hj : j < rest.length := by simpa using hi
      have hW' : ((start + 1) + j) * w + x < (base.paste img (start * w) 0).width := by
        rw [Image.paste_width]
        have : (start + 1 + j) * w = (start + (j + 1)) * w := by ring
        omega
      have hH' : y < (base.paste img (start * w) 0).height := by
        rw [Image.paste_height]; exact hH
      have := ih (base.paste img (start * w) 0) (start + 1)
        (fun a ha => hall a (List.mem_cons_of_mem img ha)) j hj hW' hH'
      have harg : (start + 1 + j) * w = (start + (j + 1)) * w := by ring
      rw [harg] at this
      rw [this]
      rfl

theorem fitLoop_of_fits (bbox : Int → String → SpriteTest.BBox) (w h : Nat)
    (text : String) (k : Nat) :
    ∀ size : Int, SpriteTest.fitsIn w h (bbox (size - 10 * k) text) →
    ∃ j : Nat, j ≤ k ∧
      SpriteTest.fitLoop bbox w h text size (k + 1) =
        some (size - 10 * j, bbox (size - 10 * j) text) ∧
      SpriteTest.fitsIn w h (bbox (size - 10 * j) text) := by
  induction k with
  | zero =>
    intro size hfit
    have hz : size - 10 * ((0 : Nat) : Int) = size := by push_cast; ring
    rw [hz] at hfit
    refine ⟨0, Nat.le_refl 0, ?_, by rw [hz]; exact hfit⟩
    rw [hz, SpriteTest.fitLoop, if_pos (by simpa [SpriteTest.fitsIn] using hfit)]
  | succ k ih =>
    intro size hfit
    have hc : size - 10 * (((k + 1) : Nat) : Int) = size - 10 - 10 * (k : Int) := by
      push_cast; ring
    rw [hc] at hfit
    by_cases h0 : SpriteTest.fitsIn w h (bbox size text)
    · have hz : size - 10 * ((0 : Nat) : Int) = size := by push_cast; ring
      refine ⟨0, Nat.zero_le _, ?_, by rw [hz]; exact h0⟩
      rw [hz, SpriteTest.fitLoop, if_pos (by simpa [SpriteTest.fitsIn] using h0)]
    · obtain ⟨j, hj, heq, hfits⟩ := ih (size - 10) hfit
      have hcast : size - 10 * (((j + 1) : Nat) : Int) = size - 10 - 10 * (j : Int) := by
        push_cast; ring
      refine ⟨j + 1, Nat.succ_le_succ hj, ?_, ?_⟩
      · rw [hcast, SpriteTest.fitLoop, if_neg (by simpa [SpriteTest.fitsIn] using h0)]
        exact heq
      · rw [hcast]
        exact hfits

theorem imagesLoop_ok (L : SpriteTest.FontLib) (width height : Nat) (bg : Color)
    (p : String) (init : Int) (fc : Color) (fuel : Nat) (n : Nat) :
    ∀ s : Nat,
      (∀ i, s ≤ i → i < s + n →
        (SpriteTest.fitLoop L.bbox width height (toString i) init fuel).isSome = true) →
      ∃ imgs : List Image,
        SpriteTest.imagesLoop L width height bg (some p) init fc fuel s n =
          some (Except.ok imgs) ∧
        imgs.length = n ∧
        ∀ j (hj : j < imgs.length), ∃ fsize pos,
          imgs.get ⟨j, hj⟩ =
            SpriteTest.drawText (Image.new width height bg) L (some fsize)
              (toString (s + j)) pos fc := by
  induction n with
  | zero =>
    intro s _
    exact ⟨[], rfl, rfl, fun j hj => absurd hj (by simp)⟩
  | succ n ih =>
    intro s hfit
    have h1 : (SpriteTest.fitLoop L.bbox width height (toString s) init fuel).isSome = true :=
      hfit s (Nat.le_refl s) (by omega)
    obtain ⟨⟨fsize, b⟩, hfl⟩ := Option.isSome_iff_exists.mp h1
    obtain ⟨rest, hrest, hlen, hget⟩ :=
      ih (s + 1) (fun i hi1 hi2 => hfit i (by omega) (by omega))
    refine ⟨SpriteTest.drawText (Image.new width height bg) L (some fsize) (toString s)
      (((width : Int) - (b.x1 - b.x0)).fdiv 2 - b.x0,
       ((height : Int) - (b.y1 - b.y0)).fdiv 2 - b.y0) fc :: rest, ?_, by simp [hlen], ?_⟩
    · simp only [SpriteTest.imagesLoop, SpriteTest.makeTile, hfl, hrest]
    · intro j hj
      cases j with
      | zero =>
        refine ⟨fsize, (((width : Int) - (b.x1 - b.x0)).fdiv 2 - b.x0,
          ((height : Int) - (b.y1 - b.y0)).fdiv 2 - b.y0), ?_⟩
        simp
      | succ jj =>
        have hj' : jj < rest.length := by simpa using hj
        obtain ⟨fs2, pos2, hp⟩ := hget jj hj'
        refine ⟨fs2, pos2, ?_⟩
        have harg : s + (jj + 1) = (s + 1) + jj := by omega
        rw [harg]
        show rest.get ⟨jj, hj'⟩ = _
        exact hp

theorem pasteStrip_eq_pasteAtOffsets (w : Nat) (base : Image) (l : List Image)
    (start : Nat) :
    pasteStrip w base l start =
      pasteAtOffsets base ((l.enumFrom start).map (fun q => (q.2, q.1 * w))) := by
  induction l generalizing base start with
  | nil => rfl
  | cons img rest ih =>
    rw [pasteStrip, ih]
    rfl

/-! ## Claim theorems -/

/-- Claim C1: for every non-empty sequence of `N` equally-sized input images
of size `(w, h)`, the sprite-sheet compositor of either script allocates an
output image whose dimensions are exactly `(N * w, h)`. -/
theorem claim_C1_sheet_dimensions (images : List Image) (w h : Nat)
    (hne : images ≠ [])
    (hall : ∀ img ∈ images, img.width = w ∧ img.height = h) :
    (CreateSprintSheet.create_sprite_sheet images).width = images.length * w ∧
    (CreateSprintSheet.create_sprite_sheet images).height = h ∧
    (SpriteTest.create_sprite_sheet images w h).width = images.length * w ∧
    (SpriteTest.create_sprite_sheet images w h).height = h := by
  have hmem : images.headI ∈ images := by
    cases images with
    | nil => exact absurd rfl hne
    | cons a l => exact List.mem_cons_self a l
  have hw : images.headI.width = w := (hall _ hmem).1
  have hh : images.headI.height = h := (hall _ hmem).2
  refine ⟨?_, ?_, ?_, ?_⟩
  · simp only [CreateSprintSheet.create_sprite_sheet]
    rw [pasteStrip_width]
    show images.headI.width * images.length = images.length * w
    rw [hw, Nat.mul_comm]
  · simp only [CreateSprintSheet.create_sprite_sheet]
    rw [pasteStrip_height]
    exact hh
  · simp only [SpriteTest.create_sprite_sheet]
    rw [pasteStrip_width]
    rfl
  · simp only [SpriteTest.create_sprite_sheet]
    rw [pasteStrip_height]
    rfl

/-- Witness for C1 at a concrete input: a single 1 by 1 image. -/
theorem claim_C1_witness :
    ([Image.new 1 1 (5, 6, 7, 255)] ≠ ([] : List Image)) ∧
    (∀ img ∈ [Image.new 1 1 (5, 6, 7, 255)], img.width = 1 ∧ img.height = 1) ∧
    ((CreateSprintSheet.create_sprite_sheet [Image.new 1 1 (5, 6, 7, 255)]).width =
        [Image.new 1 1 (5, 6, 7, 255)].length * 1 ∧
      (CreateSprintSheet.create_sprite_sheet [Image.new 1 1 (5, 6, 7, 255)]).height = 1 ∧
      (SpriteTest.create_sprite_sheet [Image.new 1 1 (5, 6, 7, 255)] 1 1).width =
        [Image.new 1 1 (5, 6, 7, 255)].length * 1 ∧
      (SpriteTest.create_sprite_sheet [Image.new 1 1 (5, 6, 7, 255)] 1 1).height = 1) :=
  ⟨by simp, by simp [Image.new],
    claim_C1_sheet_dimensions [Image.new 1 1 (5, 6, 7, 255)] 1 1 (by simp)
      (by simp [Image.new])⟩

/-- Claim C2: for every non-empty sequence of equally-sized `(w, h)` images
and every index `i`, the slice of the produced sheet covering columns
`[i * w, (i + 1) * w)` is pixel-identical to input image `i`; pasting is a
direct overwrite in sequence order with no blending. -/
theorem claim_C2_sheet_slices (images : List Image) (w h : Nat)
    (hall : ∀ img ∈ images, img.width = w ∧ img.height = h)
    (i : Nat) (hi : i < images.length) (x y : Nat) (hx : x < w) (hy : y < h) :
    (CreateSprintSheet.create_sprite_sheet images).pix (i * w + x) y =
      (images.get ⟨i, hi⟩).pix x y ∧
    (SpriteTest.create_sprite_sheet images w h).pix (i * w + x) y =
      (images.get ⟨i, hi⟩).pix x y := by
  have hne : images ≠ [] := by
    intro h0
    rw [h0] at hi
    exact absurd hi (by simp)
  have hmem : images.headI ∈ images := by
    cases images with
    | nil => exact absurd rfl hne
    | cons a l => exact List.mem_cons_self a l
  have hw : images.headI.width = w := (hall _ hmem).1
  have hh : images.headI.height = h := (hall _ hmem).2
  have hbound : i * w + x < images.length * w := by
    have h1 : i * w + x < (i + 1) * w := by
      rw [Nat.succ_mul]
      omega
    exact h1.trans_le (Nat.mul_le_mul_right w hi)
  constructor
  · simp only [CreateSprintSheet.create_sprite_sheet, hw, hh]
    have H := pasteStrip_get w h
      (Image.new (w * images.length) h (0, 0, 0, 0)) images 0 hall i hi x y hx hy
      (by rw [Nat.zero_add]; show i * w + x < w * images.length;
          rw [Nat.mul_comm w images.length]; exact hbound)
      hy
    rw [Nat.zero_add] at H
    exact H
  · simp only [SpriteTest.create_sprite_sheet]
    have H := pasteStrip_get w h
      (Image.new (images.length * w) h (255, 255, 255, 255)) images 0 hall i hi x y hx hy
      (by rw [Nat.zero_add]; exact hbound)
      hy
    rw [Nat.zero_add] at H
    exact H

/-- Witness for C2 at a concrete input: two distinct 1 by 1 images, reading
back the second slice of both sheets. -/
theorem claim_C2_witness :
    (∀ img ∈ [Image.new 1 1 (1, 2, 3, 255), Image.new 1 1 (4, 5, 6, 255)],
      img.width = 1 ∧ img.height = 1) ∧
    ((CreateSprintSheet.create_sprite_sheet
        [Image.new 1 1 (1, 2, 3, 255), Image.new 1 1 (4, 5, 6, 255)]).pix (1 * 1 + 0) 0 =
      ([Image.new 1 1 (1, 2, 3, 255), Image.new 1 1 (4, 5, 6, 255)].get
        ⟨1, by simp⟩).pix 0 0 ∧
    (SpriteTest.create_sprite_sheet
        [Image.new 1 1 (1, 2, 3, 255), Image.new 1 1 (4, 5, 6, 255)] 1 1).pix (1 * 1 + 0) 0 =
      ([Image.new 1 1 (1, 2, 3, 255), Image.new 1 1 (4, 5, 6, 255)].get
        ⟨1, by simp⟩).pix 0 0) :=
  ⟨by simp [Image.new],
    claim_C2_sheet_slices [Image.new 1 1 (1, 2, 3, 255), Image.new 1 1 (4, 5, 6, 255)] 1 1
      (by simp [Image.new]) 1 (by simp) 0 0 (by omega) (by omega)⟩

/-- Claim C10: the directory-mode compositor takes the sheet dimensions
solely from the first image, for any non-empty list whether or not the
images are equally sized, and pastes at offsets `index` times the width of
the first image regardless of the later images. -/
theorem claim_C10_first_image_governs (images : List Image) (hne : images ≠ []) :
    (CreateSprintSheet.create_sprite_sheet images).width =
      images.headI.width * images.length ∧
    (CreateSprintSheet.create_sprite_sheet images).height = images.headI.height ∧
    CreateSprintSheet.create_sprite_sheet images =
      pasteAtOffsets
        (Image.new (images.headI.width * images.length) images.headI.height (0, 0, 0, 0))
        (firstImageOffsets images) := by
  refine ⟨?_, ?_, ?_⟩
  · simp only [CreateSprintSheet.create_sprite_sheet]
    rw [pasteStrip_width]
    rfl
  · simp only [CreateSprintSheet.create_sprite_sheet]
    rw [pasteStrip_height]
    rfl
  · simp only [CreateSprintSheet.create_sprite_sheet, firstImageOffsets]
    exact pasteStrip_eq_pasteAtOffsets images.headI.width _ images 0

/-- Witness for C10 at a concrete input: two images of different sizes; the
sheet dimensions come from the first image only. -/
theorem claim_C10_witness :
    ([Image.new 2 3 (0, 0, 0, 0), Image.new 5 7 (9, 9, 9, 255)] ≠ ([] : List Image)) ∧
    ((CreateSprintSheet.create_sprite_sheet
        [Image.new 2 3 (0, 0, 0, 0), Image.new 5 7 (9, 9, 9, 255)]).width =
      [Image.new 2 3 (0, 0, 0, 0), Image.new 5 7 (9, 9, 9, 255)].headI.width * 2 ∧
    (CreateSprintSheet.create_sprite_sheet
        [Image.new 2 3 (0, 0, 0, 0), Image.new 5 7 (9, 9, 9, 255)]).height =
      [Image.new 2 3 (0, 0, 0, 0), Image.new 5 7 (9, 9, 9, 255)].headI.height) :=
  ⟨by simp,
    ⟨(claim_C10_first_image_governs
        [Image.new 2 3 (0, 0, 0, 0), Image.new 5 7 (9, 9, 9, 255)] (by simp)).1,
     (claim_C10_first_image_governs
        [Image.new 2 3 (0, 0, 0, 0), Image.new 5 7 (9, 9, 9, 255)] (by simp)).2.1⟩⟩

/-- Claim C4: for every directory, `load_images` produces exactly the images
decoded from the files whose names end (case-sensitively) in `.png`, in
lexicographic filename order, with every other file excluded.  Recursion
into subdirectories cannot occur because `os.listdir` yields only the
immediate entries, which is what `listing` models. -/
theorem claim_C4_load_images (decode : String → Image) (image_dir : String)
    (listing : List String) :
    ∃ names : List String,
      CreateSprintSheet.load_images decode image_dir listing =
        names.map (fun f => decode (path_join image_dir f)) ∧
      names.Perm (listing.filter (fun f => pyEndsWith f ".png")) ∧
      names.Sorted pyLe := by
  refine ⟨CreateSprintSheet.image_files listing, rfl, ?_, ?_⟩
  · exact (pySorted_perm listing).filter _
  · exact (pySorted_sorted listing).filter _

/-- Claim C5: when the input directory holds no file ending in `.png`, the
directory-mode tool writes no output file and prints the no-files message as
its only observable effect. -/
theorem claim_C5_empty_directory (decode : String → Image) (image_dir : String)
    (listing : List String)
    (hnone : ∀ f ∈ listing, pyEndsWith f ".png" = false) :
    (CreateSprintSheet.main_run decode image_dir listing).written = none ∧
    (CreateSprintSheet.main_run decode image_dir listing).printed =
      "No PNG files found in the directory." := by
  have hfiles : CreateSprintSheet.image_files listing = [] := by
    rw [CreateSprintSheet.image_files]
    rw [List.filter_eq_nil_iff]
    intro a ha
    simp [hnone a ((pySorted_perm listing).mem_iff.mp ha)]
  have himgs : CreateSprintSheet.load_images decode image_dir listing = [] := by
    rw [CreateSprintSheet.load_images, hfiles]
    rfl
  constructor <;> simp [CreateSprintSheet.main_run, himgs]

/-- Witness for C5 at a concrete input: a directory with two files, neither
of which ends in .png. -/
theorem claim_C5_witness :
    (∀ f ∈ ["notes.txt", "picture.jpg"], pyEndsWith f ".png" = false) ∧
    ((CreateSprintSheet.main_run (fun _ => Image.new 1 1 (0, 0, 0, 0)) "imgs"
        ["notes.txt", "picture.jpg"]).written = none ∧
      (CreateSprintSheet.main_run (fun _ => Image.new 1 1 (0, 0, 0, 0)) "imgs"
        ["notes.txt", "picture.jpg"]).printed = "No PNG files found in the directory.") :=
  ⟨by decide, claim_C5_empty_directory _ _ _ (by decide)⟩

/-- Claim C9: the output path of the directory-mode tool lies inside the
input directory and ends in `.png`, so a directory that already holds
`sprite_sheet.png` feeds it back into `load_images`, and a second run over
the same directory processes a different input set than the first. -/
theorem claim_C9_output_rescanned (image_dir : String) (listing : List String) :
    (∃ s, path_join image_dir "sprite_sheet.png" = image_dir ++ s ∧
      pyEndsWith s ".png" = true) ∧
    ("sprite_sheet.png" ∈ listing →
      "sprite_sheet.png" ∈ CreateSprintSheet.image_files listing) ∧
    ("sprite_sheet.png" ∉ listing →
      CreateSprintSheet.image_files (listing ++ ["sprite_sheet.png"]) ≠
        CreateSprintSheet.image_files listing) := by
  refine ⟨?_, ?_, ?_⟩
  · rw [path_join]
    by_cases h1 : image_dir = ""
    · rw [if_pos h1, h1]
      exact ⟨"sprite_sheet.png", by decide, by decide⟩
    · by_cases h2 : pyEndsWith image_dir "/" = true
      · rw [if_neg h1, if_pos h2]
        exact ⟨"sprite_sheet.png", rfl, by decide⟩
      · rw [if_neg h1, if_neg h2]
        refine ⟨"/sprite_sheet.png", ?_, by decide⟩
        rw [String.append_assoc]
        have h3 : ("/" : String) ++ "sprite_sheet.png" = "/sprite_sheet.png" := by decide
        rw [h3]
  · intro hmem
    rw [CreateSprintSheet.image_files, List.mem_filter]
    exact ⟨(pySorted_perm listing).mem_iff.mpr hmem, by decide⟩
  · intro hnotin heq
    have h1 : "sprite_sheet.png" ∈
        CreateSprintSheet.image_files (listing ++ ["sprite_sheet.png"]) := by
      rw [CreateSprintSheet.image_files, List.mem_filter]
      exact ⟨(pySorted_perm _).mem_iff.mpr (by simp), by decide⟩
    rw [heq, CreateSprintSheet.image_files, List.mem_filter] at h1
    exact hnotin ((pySorted_perm listing).mem_iff.mp h1.1)

/-- Witness for C9 at a concrete input: a listing that contains the previous
output file, which the next run picks up. -/
theorem claim_C9_witness :
    ("sprite_sheet.png" ∈ ["a.png", "sprite_sheet.png"]) ∧
    ("sprite_sheet.png" ∈ CreateSprintSheet.image_files ["a.png", "sprite_sheet.png"]) :=
  ⟨by decide,
    (claim_C9_output_rescanned "imgs" ["a.png", "sprite_sheet.png"]).2.1 (by decide)⟩

/-- Claim C3 concerns the fallback when no probed font path exists.
`get_font_path` does return `None` then, but `create_individual_images`
crashes on its first iteration instead of producing the tiles: on the
`font_path is None` path the assignment `text_x = ... - text_bbox[0]` reads
the local `text_bbox`, which is only ever assigned under `if font_path:`,
so Python raises `UnboundLocalError` and the process terminates.  This
theorem evaluates the embedded code on that path. -/
theorem claim_C3_no_font_crashes (L : SpriteTest.FontLib) (fsExists : String → Bool)
    (hnone : ∀ q ∈ SpriteTest.possible_paths, fsExists q = false)
    (count width height : Nat) (hc : 1 ≤ count) (bg fc : Color)
    (initial_font_size : Int) (fuel : Nat) :
    SpriteTest.get_font_path fsExists = none ∧
    SpriteTest.create_individual_images L count width height bg
      (SpriteTest.get_font_path fsExists) initial_font_size fc fuel =
      some (Except.error SpriteTest.PyErr.unboundLocalTextBbox) := by
  have hgf : SpriteTest.get_font_path fsExists = none := by
    rw [SpriteTest.get_font_path, List.find?_eq_none]
    intro q hq
    simp [hnone q hq]
  refine ⟨hgf, ?_⟩
  rw [hgf]
  obtain ⟨n, rfl⟩ : ∃ n, count = n + 1 := ⟨count - 1, by omega⟩
  simp [SpriteTest.create_individual_images, SpriteTest.imagesLoop, SpriteTest.makeTile]

/-- Witness for C3 at a concrete input: no probed path exists and the run
with the fixed parameters of the script ends in the error. -/
theorem claim_C3_witness :
    (∀ q ∈ SpriteTest.possible_paths, (fun _ => false : String → Bool) q = false) ∧
    (SpriteTest.get_font_path (fun _ => false) = none ∧
      SpriteTest.create_individual_images constLib 8 276 315 (255, 255, 255, 255)
        (SpriteTest.get_font_path (fun _ => false)) 250 (0, 0, 0, 255) 100 =
        some (Except.error SpriteTest.PyErr.unboundLocalTextBbox)) :=
  ⟨fun _ _ => rfl,
    claim_C3_no_font_crashes constLib (fun _ => false) (fun _ _ => rfl) 8 276 315
      (by omega) (255, 255, 255, 255) (0, 0, 0, 255) 250 100⟩

/-- Claim C6: with a scalable font resolved, for the fixed tile (276, 315),
start size 250 and step 10, whenever the label fits at some size on the
descending ladder (which a real scalable font provides), the size-fit loop
terminates within a bounded number of steps and the size it returns has a
measured bounding box of width at most 276 and height at most 315. -/
theorem claim_C6_fit_loop_terminates (bbox : Int → String → SpriteTest.BBox)
    (text : String) (k : Nat)
    (hfit : SpriteTest.fitsIn 276 315 (bbox (250 - 10 * k) text)) :
    ∃ j : Nat, j ≤ k ∧
      SpriteTest.fitLoop bbox 276 315 text 250 (k + 1) =
        some ((250 : Int) - 10 * j, bbox ((250 : Int) - 10 * j) text) ∧
      SpriteTest.fitsIn 276 315 (bbox ((250 : Int) - 10 * j) text) :=
  fitLoop_of_fits bbox 276 315 text k 250 hfit

/-- Witness for C6 at a concrete input: a font model whose label "8" box at
size 250 already fits the tile, so the loop stops at once. -/
theorem claim_C6_witness :
    SpriteTest.fitsIn 276 315 (constLib.bbox (250 - 10 * (0 : Nat)) "8") ∧
    ∃ j : Nat, j ≤ 0 ∧
      SpriteTest.fitLoop constLib.bbox 276 315 "8" 250 (0 + 1) =
        some ((250 : Int) - 10 * j, constLib.bbox ((250 : Int) - 10 * j) "8") ∧
      SpriteTest.fitsIn 276 315 (constLib.bbox ((250 : Int) - 10 * j) "8") :=
  ⟨by decide, claim_C6_fit_loop_terminates constLib.bbox "8" 0 (by decide)⟩

/-- Claim C7 (amended): for every count `N`, when a scalable font path is
provided and the size-fit search succeeds for each label,
`create_individual_images` produces exactly `N` images, each a solid-fill
canvas of the given size and background on which the decimal string of its
1-based index is drawn in the given text colour.  (As stated over every
font argument the claim fails: with no font resolved it raises; see the
counterexample.) -/
theorem claim_C7_individual_images (L : SpriteTest.FontLib)
    (count width height : Nat) (bg : Color) (p : String)
    (initial_font_size : Int) (fc : Color) (fuel : Nat)
    (hfit : ∀ i, 1 ≤ i → i ≤ count →
      (SpriteTest.fitLoop L.bbox width height (toString i) initial_font_size
        fuel).isSome = true) :
    ∃ imgs : List Image,
      SpriteTest.create_individual_images L count width height bg (some p)
        initial_font_size fc fuel = some (Except.ok imgs) ∧
      imgs.length = count ∧
      ∀ j (hj : j < imgs.length), ∃ fsize pos,
        imgs.get ⟨j, hj⟩ =
          SpriteTest.drawText (Image.new width height bg) L (some fsize)
            (toString (j + 1)) pos fc := by
  obtain ⟨imgs, h1, h2, h3⟩ :=
    imagesLoop_ok L width height bg p initial_font_size fc fuel count 1
      (fun i hi1 hi2 => hfit i hi1 (by omega))
  refine ⟨imgs, h1, h2, ?_⟩
  intro j hj
  obtain ⟨fsize, pos, hp⟩ := h3 j hj
  refine ⟨fsize, pos, ?_⟩
  rw [show j + 1 = 1 + j from Nat.add_comm j 1]
  exact hp

/-- Counterexample to C7 as stated: at count 1 with no font resolved
(`font_path = None`, the probe outcome the claim quantifies over),
`create_individual_images` does not produce 1 image; it raises
`UnboundLocalError`. -/
theorem claim_C7_counterexample :
    ¬ ∃ imgs : List Image,
      SpriteTest.create_individual_images constLib 1 276 315 (255, 255, 255, 255)
        none 250 (0, 0, 0, 255) 100 = some (Except.ok imgs) := by
  rintro ⟨imgs, h⟩
  have h0 : SpriteTest.create_individual_images constLib 1 276 315 (255, 255, 255, 255)
      none 250 (0, 0, 0, 255) 100 =
      some (Except.error SpriteTest.PyErr.unboundLocalTextBbox) := rfl
  rw [h0] at h
  simp at h

/-- Witness for the amended C7 at a concrete input: two tiles with a font
model that fits at once. -/
theorem claim_C7_witness :
    (∀ i, 1 ≤ i → i ≤ 2 →
      (SpriteTest.fitLoop constLib.bbox 276 315 (toString i) 250 1).isSome = true) ∧
    ∃ imgs : List Image,
      SpriteTest.create_individual_images constLib 2 276 315 (255, 255, 255, 255)
        (some "/usr/share/fonts/truetype/dejavu/DejaVuSans-Bold.ttf") 250
        (0, 0, 0, 255) 1 = some (Except.ok imgs) ∧
      imgs.length = 2 ∧
      ∀ j (hj : j < imgs.length), ∃ fsize pos,
        imgs.get ⟨j, hj⟩ =
          SpriteTest.drawText (Image.new 276 315 (255, 255, 255, 255)) constLib
            (some fsize) (toString (j + 1)) pos (0, 0, 0, 255) :=
  ⟨fun _ _ _ => rfl,
    claim_C7_individual_images constLib 2 276 315 (255, 255, 255, 255)
      "/usr/share/fonts/truetype/dejavu/DejaVuSans-Bold.ttf" 250 (0, 0, 0, 255) 1
      (fun _ _ _ => rfl)⟩

/-- Claim C8: in each synthetic tile the draw position is, per axis,
`(tileDimension - textDimension) // 2` minus the origin coordinate of the
measured bounding box, with `textDimension` the box extent. -/
theorem claim_C8_text_position (L : SpriteTest.FontLib) (width height : Nat)
    (bg fc : Color) (p : String) (initial_font_size : Int) (fuel i : Nat)
    (fsize : Int) (b : SpriteTest.BBox)
    (hfit : SpriteTest.fitLoop L.bbox width height (toString i) initial_font_size fuel =
      some (fsize, b)) :
    SpriteTest.makeTile L width height bg (some p) initial_font_size fc fuel i =
      some (Except.ok (SpriteTest.drawText (Image.new width height bg) L (some fsize)
        (toString i)
        (((width : Int) - (b.x1 - b.x0)).fdiv 2 - b.x0,
         ((height : Int) - (b.y1 - b.y0)).fdiv 2 - b.y0) fc)) := by
  simp only [SpriteTest.makeTile, hfit]

/-- Witness for C8 at a concrete input. -/
theorem claim_C8_witness :
    (SpriteTest.fitLoop constLib.bbox 276 315 (toString 1) 250 1 =
      some (250, SpriteTest.BBox.mk 0 0 250 250)) ∧
    SpriteTest.makeTile constLib 276 315 (255, 255, 255, 255)
        (some "/Library/Fonts/Arial.ttf") 250 (0, 0, 0, 255) 1 1 =
      some (Except.ok (SpriteTest.drawText (Image.new 276 315 (255, 255, 255, 255))
        constLib (some 250) (toString 1)
        (((276 : Int) - (250 - 0)).fdiv 2 - 0,
         ((315 : Int) - (250 - 0)).fdiv 2 - 0) (0, 0, 0, 255))) :=
  ⟨rfl,
    claim_C8_text_position constLib 276 315 (255, 255, 255, 255) (0, 0, 0, 255)
      "/Library/Fonts/Arial.ttf" 250 1 1 250 (SpriteTest.BBox.mk 0 0 250 250) rfl⟩
